import Mathlib

/-!
Shallow embedding of the content script in matiane-add-title/content.js.

The script computes a fixed suffix from the page hostname, appends it to the
document title, and keeps it present by observing DOM mutations.  Strings of
the host language are modelled as lists of characters; DOM nodes carry an
identity and a tag name; observers are modelled as explicit subscription
records in a system state that the translated functions thread through, and
each translated operation also returns the trace of calls it makes.
-/

namespace Matiane

/-- Host-language strings, modelled as lists of characters. -/
abbrev Str := List Char

/-- Embedding of the endsWith check of the host language: jsEndsWith s pat
holds when pat is a suffix of s. -/
def jsEndsWith (s pat : Str) : Bool := pat.isSuffixOf s

/-- Embedding of the suffix computed once at script start, content.js
lines 4-5: a space, an opening square bracket, the hostname, a closing
square bracket. -/
def mkSuffix (host : Str) : Str := " [".data ++ host ++ "]".data

/-- Translation of formatTitle, content.js lines 7-11: when the title is
non-empty (truthy) and does not already end with the suffix, append the
suffix; otherwise leave the title unchanged. -/
def formatTitle (suffix title : Str) : Str :=
  if !title.isEmpty && !(jsEndsWith title suffix) then title ++ suffix else title

/-- A DOM node as far as the script distinguishes nodes: an identity and a
tag name (upper case for HTML elements). -/
structure NodeInfo where
  id : Nat
  tagName : Str
deriving DecidableEq, Repr

/-- The slice of the document the script reads: the result of querySelector
for head, the result of querySelector for title, and the title text. -/
structure Dom where
  head : Option NodeInfo
  titleElem : Option NodeInfo
  title : Str
deriving DecidableEq, Repr

/-- Options passed when an observer is attached to a node. -/
structure ObserveConfig where
  childList : Bool
  characterData : Bool
  subtree : Bool
deriving DecidableEq, Repr

/-- Which callback an observer was constructed with: formatTitle for the
title observer of content.js line 18, or the retargeting callback of the
anonymous head observer of lines 39-47. -/
inductive Callback where
  | formatTitleCb
  | headCb
deriving DecidableEq, Repr

/-- An active observer subscription: observed target, options, callback. -/
structure Subscription where
  target : NodeInfo
  config : ObserveConfig
  cb : Callback
deriving DecidableEq, Repr

/-- The state the script manipulates: the DOM slice, the titleObserver
variable of content.js line 13 (none models both null and a disconnected
observer, so the field holds exactly the active title subscription), the
anonymous head observer of lines 39-51, and whether the DOMContentLoaded
listener of line 57 is registered. -/
structure SysState where
  dom : Dom
  titleObserver : Option Subscription
  headObserver : Option Subscription
  dclSubscribed : Bool
deriving DecidableEq, Repr

/-- Calls recorded in execution traces: an invocation of formatTitle, an
invocation of attachHeadObserver, and the DOMContentLoaded registration. -/
inductive Call where
  | fmt
  | attach
  | subscribeDCL
deriving DecidableEq, Repr

/-- Translation of watchTitleElement, content.js lines 14-27, threaded over
the explicit state.  The old title observer is disconnected first; when a
node is given, a subscription with childList, characterData and subtree all
enabled is established on it and formatTitle is then invoked once.  The
second component records the formatTitle invocations made. -/
def watchTitleElement (suffix : Str) (titleNode : Option NodeInfo) (st : SysState) :
    SysState × List Call :=
  let st1 : SysState := { st with titleObserver := none }
  match titleNode with
  | none => (st1, [])
  | some n =>
    let st2 : SysState :=
      { st1 with titleObserver := some ⟨n, ⟨true, true, true⟩, Callback.formatTitleCb⟩ }
    ({ st2 with dom := { st2.dom with title := formatTitle suffix st2.dom.title } },
     [Call.fmt])

/-- Translation of attachHeadObserver, content.js lines 29-54: bail out with
false when querySelector finds no head; otherwise watch the current title
element (possibly absent), run formatTitle, and install the anonymous head
observer with childList enabled and characterData and subtree disabled.
Returns the boolean result, the new state, and the trace of formatTitle
invocations made inside. -/
def attachHeadObserver (suffix : Str) (st : SysState) : Bool × SysState × List Call :=
  match st.dom.head with
  | none => (false, st, [])
  | some h =>
    let w := watchTitleElement suffix st.dom.titleElem st
    let st2 : SysState :=
      { w.1 with dom := { w.1.dom with title := formatTitle suffix w.1.dom.title } }
    let st3 : SysState :=
      { st2 with headObserver := some ⟨h, ⟨true, false, false⟩, Callback.headCb⟩ }
    (true, st3, w.2 ++ [Call.fmt])

/-- Translation of the top level of the script, content.js lines 56-58:
attempt attachHeadObserver; when it reports not ready, register the
DOMContentLoaded listener. -/
def startup (suffix : Str) (st : SysState) : SysState × List Call :=
  let a := attachHeadObserver suffix st
  if a.1 then (a.2.1, Call.attach :: a.2.2)
  else ({ a.2.1 with dclSubscribed := true }, Call.attach :: (a.2.2 ++ [Call.subscribeDCL]))

/-- The DOMContentLoaded event firing: when the listener is registered, the
environment invokes attachHeadObserver once. -/
def onDCL (suffix : Str) (st : SysState) : SysState × List Call :=
  if st.dclSubscribed then
    let a := attachHeadObserver suffix st
    (a.2.1, Call.attach :: a.2.2)
  else (st, [])

/-- Replacement of the DOM slice, modelling document changes made by the
page between load and the DOMContentLoaded event. -/
def setDom (d : Dom) (st : SysState) : SysState := { st with dom := d }

/-- Fresh script state over a given document. -/
def initSt (d : Dom) : SysState := ⟨d, none, none, false⟩

/-- One whole run of the startup protocol: the script is injected on a
document d0, the page may have changed the document to d1 by the time
DOMContentLoaded fires, and the one-time event is then delivered when the
listener was registered. -/
def lifecycle (suffix : Str) (d0 d1 : Dom) : SysState × List Call :=
  let s := startup suffix (initSt d0)
  if s.1.dclSubscribed then
    let r := onDCL suffix (setDom d1 s.1)
    (r.1, s.2 ++ r.2)
  else s

/-- Number of occurrences of a call in a trace. -/
def countCalls (c : Call) (tr : List Call) : Nat :=
  tr.countP (fun x => decide (x = c))

/-- Number of active subscriptions in a state. -/
def activeSubs (st : SysState) : Nat :=
  (if st.titleObserver.isSome then 1 else 0) + (if st.headObserver.isSome then 1 else 0)

/-- Kinds of DOM mutations the script observes. -/
inductive MutKind where
  | childList
  | characterData
deriving DecidableEq, Repr

/-- A DOM mutation event: the node it happens at, the chain of its
ancestors, and its kind. -/
structure MutEvent where
  node : NodeInfo
  ancestors : List NodeInfo
  kind : MutKind
deriving DecidableEq, Repr

/-- Whether observe options select a mutation kind. -/
def matchesKind (c : ObserveConfig) : MutKind → Bool
  | MutKind.childList => c.childList
  | MutKind.characterData => c.characterData

/-- Observer delivery: a subscription receives an event when its options
select the kind of the event and the event happens at the target itself, or
below the target when subtree is enabled. -/
def deliveredTo (sub : Subscription) (ev : MutEvent) : Bool :=
  matchesKind sub.config ev.kind &&
    (decide (ev.node = sub.target) ||
      (sub.config.subtree && decide (sub.target ∈ ev.ancestors)))

/-- A mutation record as handed to the head observer callback: its target
and the nodes it reports as added. -/
structure MutationRecord where
  target : NodeInfo
  addedNodes : List NodeInfo
deriving DecidableEq, Repr

/-- Tag name compared against on content.js line 42. -/
def titleTag : Str := "TITLE".data

/-- Translation of the double loop of content.js lines 40-47: scan the
records in order, and inside each record the added nodes in order, for the
first node whose tagName is TITLE. -/
def findTitleInRecords : List MutationRecord → Option NodeInfo
  | [] => none
  | m :: rest =>
    match m.addedNodes.find? (fun n => decide (n.tagName = titleTag)) with
    | some n => some n
    | none => findTitleInRecords rest

/-- Translation of the head observer callback, content.js lines 39-47: when
a TITLE node is found among the added nodes, retarget via watchTitleElement
and return at once; otherwise do nothing. -/
def headCallback (suffix : Str) (muts : List MutationRecord) (st : SysState) :
    SysState × List Call :=
  match findTitleInRecords muts with
  | some n => watchTitleElement suffix (some n) st
  | none => (st, [])

/-- Events of the title subsystem: the page mutates the title text, or the
host delivers the title observer callback, which is formatTitle. -/
inductive Event where
  | mutate (t : Str)
  | observerFire
deriving Repr

/-- One step of the title subsystem. -/
def stepEv (suffix t : Str) : Event → Str
  | Event.mutate s => s
  | Event.observerFire => formatTitle suffix t

/-- Title texts reachable from an initial title by page mutations and
observer callbacks. -/
inductive ReachableTitle (suffix t0 : Str) : Str → Prop where
  | refl : ReachableTitle suffix t0 t0
  | step (t : Str) (e : Event) : ReachableTitle suffix t0 t →
      ReachableTitle suffix t0 (stepEv suffix t e)

/-- Concrete hostname for witnesses and counterexamples. -/
def hostEx : Str := "example.com".data

/-- Concrete head node. -/
def hNode : NodeInfo := ⟨0, "HEAD".data⟩

/-- Concrete title node. -/
def tNode : NodeInfo := ⟨1, "TITLE".data⟩

/-- Document with a title element but no head element. -/
def domTitleOnly : Dom := ⟨none, some tNode, "Home".data⟩

/-- Document with both head and title elements. -/
def domFull : Dom := ⟨some hNode, some tNode, "Home".data⟩

/-- Document with a head element and no title element. -/
def domHeadOnly : Dom := ⟨some hNode, none, "Home".data⟩

/-- Document with neither head nor title element and a non-empty title
text. -/
def domBare : Dom := ⟨none, none, "Home".data⟩

/-- Helper: on a title already ending with the suffix, formatTitle is the
identity. -/
theorem formatTitle_noop_of_suffixed (s t : Str) (h : jsEndsWith t s = true) :
    formatTitle s t = t := by
  simp [formatTitle, h]

/-- Helper: formatTitle always yields an empty title or one ending with the
suffix. -/
theorem formatTitle_empty_or_suffixed (s t : Str) :
    formatTitle s t = [] ∨ jsEndsWith (formatTitle s t) s = true := by
  by_cases ht : t.isEmpty = true
  · left
    have hnil : t = [] := List.isEmpty_iff.mp ht
    simp [formatTitle, hnil]
  · by_cases he : jsEndsWith t s = true
    · right
      rw [formatTitle_noop_of_suffixed s t he]
      exact he
    · right
      have hstep : formatTitle s t = t ++ s := by
        simp [formatTitle, ht, he]
      rw [hstep]
      unfold jsEndsWith
      exact List.isSuffixOf_iff_suffix.mpr (List.suffix_append t s)

/-- Helper: formatTitle never empties a non-empty title. -/
theorem formatTitle_ne_nil (s t : Str) (h : t ≠ []) : formatTitle s t ≠ [] := by
  unfold formatTitle
  by_cases c : (!t.isEmpty && !(jsEndsWith t s)) = true
  · rw [if_pos c]
    intro hc
    exact h (List.append_eq_nil.mp hc).1
  · rw [if_neg c]
    exact h

/-- C1: the claim that for every initial title T and hostname H the suffix
operation yields T when T already ends with the suffix and T plus the suffix
otherwise fails at the empty title: formatTitle leaves an empty title empty,
while the claimed value there is the bare suffix. -/
theorem c1_counterexample :
    ¬ (formatTitle (mkSuffix hostEx) [] =
        if jsEndsWith [] (mkSuffix hostEx) then ([] : Str)
        else [] ++ mkSuffix hostEx) := by
  decide

/-- C1 amended: for every hostname H and non-empty initial title T, the
suffix operation yields T when T already ends with the suffix and T plus the
suffix otherwise. -/
theorem c1_amended (H T : Str) (h : T ≠ []) :
    formatTitle (mkSuffix H) T =
      if jsEndsWith T (mkSuffix H) then T else T ++ mkSuffix H := by
  have ht : T.isEmpty = false := by
    cases T with
    | nil => exact absurd rfl h
    | cons a l => rfl
  cases he : jsEndsWith T (mkSuffix H) with
  | true => simp [formatTitle, he]
  | false => simp [formatTitle, ht, he]

/-- C1 witness at title Home and hostname example.com. -/
theorem c1_witness :
    formatTitle (mkSuffix hostEx) "Home".data =
      if jsEndsWith "Home".data (mkSuffix hostEx) then "Home".data
      else "Home".data ++ mkSuffix hostEx :=
  c1_amended hostEx "Home".data (by decide)

/-- C2: in every title state reachable by page mutations and observer
callbacks, applying the observer callback (formatTitle) yields a title that
is empty or ends with the suffix, so the suffix invariant holds outside the
transient window between a mutation and the next callback. -/
theorem c2_callback_restores (suffix t0 t : Str) (_h : ReachableTitle suffix t0 t) :
    formatTitle suffix t = [] ∨ jsEndsWith (formatTitle suffix t) suffix = true :=
  formatTitle_empty_or_suffixed suffix t

/-- C2 witness: the initial title Home is reachable and the callback yields
a suffixed title there. -/
theorem c2_witness :
    formatTitle (mkSuffix hostEx) "Home".data = [] ∨
    jsEndsWith (formatTitle (mkSuffix hostEx) "Home".data) (mkSuffix hostEx) = true :=
  c2_callback_restores (mkSuffix hostEx) "Home".data "Home".data ReachableTitle.refl

/-- C3: formatTitle is idempotent, and it is the identity on the empty title
and on titles already carrying the suffix. -/
theorem c3_idempotent (s t : Str) :
    formatTitle s (formatTitle s t) = formatTitle s t ∧
    (t = [] → formatTitle s t = t) ∧
    (jsEndsWith t s = true → formatTitle s t = t) := by
  refine ⟨?_, ?_, ?_⟩
  · rcases formatTitle_empty_or_suffixed s t with h | h
    · rw [h]
      rfl
    · exact formatTitle_noop_of_suffixed s _ h
  · intro hnil
    rw [hnil]
    rfl
  · exact formatTitle_noop_of_suffixed s t

/-- C3 witness: the idempotence and the empty-title branch applied at the
empty title and hostname example.com. -/
theorem c3_witness : formatTitle (mkSuffix hostEx) [] = [] :=
  (c3_idempotent (mkSuffix hostEx) []).2.1 rfl

/-- C8: the observer callback leaves an empty title empty, and once a
mutation gives the title non-empty content the callback yields a title
carrying the suffix. -/
theorem c8_empty_title (suffix t0 : Str) :
    stepEv suffix [] Event.observerFire = [] ∧
    (∀ t : Str, t ≠ [] →
      jsEndsWith (stepEv suffix (stepEv suffix t0 (Event.mutate t)) Event.observerFire)
        suffix = true) := by
  constructor
  · rfl
  · intro t ht
    show jsEndsWith (formatTitle suffix t) suffix = true
    rcases formatTitle_empty_or_suffixed suffix t with h | h
    · exact absurd h (formatTitle_ne_nil suffix t ht)
    · exact h

/-- C8 witness: after mutating the empty title to Home the callback yields a
suffixed title. -/
theorem c8_witness :
    jsEndsWith
      (stepEv (mkSuffix hostEx)
        (stepEv (mkSuffix hostEx) [] (Event.mutate "Home".data)) Event.observerFire)
      (mkSuffix hostEx) = true :=
  (c8_empty_title (mkSuffix hostEx) []).2 "Home".data (by decide)

/-- C9: with the empty hostname the suffix computed at script start is a
space and an empty pair of square brackets, and formatTitle still appends it
to every non-empty title not already ending in it. -/
theorem c9_empty_hostname :
    mkSuffix [] = " []".data ∧
    (∀ t : Str, t ≠ [] → jsEndsWith t (mkSuffix []) = false →
      formatTitle (mkSuffix []) t = t ++ " []".data) := by
  constructor
  · decide
  · intro t ht he
    have hm : mkSuffix [] = " []".data := by decide
    have ht2 : t.isEmpty = false := by
      cases t with
      | nil => exact absurd rfl ht
      | cons a l => rfl
    rw [← hm]
    simp [formatTitle, ht2, he]

/-- C9 witness: the empty-hostname suffix is appended to the title Home. -/
theorem c9_witness :
    formatTitle (mkSuffix []) "Home".data = "Home".data ++ " []".data :=
  c9_empty_hostname.2 "Home".data (by decide) (by decide)

/-- C4: the claim that on load formatTitle is called once immediately before
the attach attempt fails: on a document with no head element the whole load
performs no formatTitle invocation at all, and the first recorded call is
the attach attempt itself. -/
theorem c4_counterexample :
    ((startup (mkSuffix hostEx) (initSt domBare)).2).head? = some Call.attach ∧
    ((startup (mkSuffix hostEx) (initSt domBare)).2).head? ≠ some Call.fmt ∧
    countCalls Call.fmt (startup (mkSuffix hostEx) (initSt domBare)).2 = 0 := by
  decide

/-- C4 amended: on load the script attempts attach directly, with no
separate formatTitle call before it; when attach reports not ready it
registers the DOMContentLoaded listener, whose one-time firing retries
attach exactly once, so a run performs one attach attempt when the head
exists at load and exactly two otherwise, and registers the listener exactly
when the first attempt failed. -/
theorem c4_amended (suffix : Str) (d0 d1 : Dom) :
    ((lifecycle suffix d0 d1).2).head? = some Call.attach ∧
    countCalls Call.attach (lifecycle suffix d0 d1).2 =
      (if d0.head.isSome then 1 else 2) ∧
    countCalls Call.subscribeDCL (lifecycle suffix d0 d1).2 =
      (if d0.head.isSome then 0 else 1) := by
  rcases d0 with ⟨h0, t0, ttl0⟩
  rcases d1 with ⟨h1, t1, ttl1⟩
  cases h0 <;> cases t0 <;> cases h1 <;> cases t1 <;>
    exact ⟨rfl, rfl, rfl⟩

/-- C5: the claim that attach reports not ready exactly when neither a title
nor a head element exists fails on a document holding a title element but no
head element: a title element is present, yet attach reports not ready. -/
theorem c5_counterexample :
    ¬ (((attachHeadObserver (mkSuffix hostEx) (initSt domTitleOnly)).1 = false) ↔
        ((initSt domTitleOnly).dom.titleElem = none ∧
          (initSt domTitleOnly).dom.head = none)) := by
  decide

/-- C5 amended: attach reports not ready and leaves the state unchanged
exactly when no head element exists, regardless of the title element; when a
head element exists and a title element does not, attach succeeds, observes
the head element with the retargeting observer, and establishes no title
subscription. -/
theorem c5_amended (suffix : Str) (st : SysState) :
    ((attachHeadObserver suffix st).1 = false ↔ st.dom.head = none) ∧
    (st.dom.head = none → (attachHeadObserver suffix st).2.1 = st) ∧
    (∀ h : NodeInfo, st.dom.head = some h → st.dom.titleElem = none →
      (attachHeadObserver suffix st).1 = true ∧
      ((attachHeadObserver suffix st).2.1).headObserver =
        some ⟨h, ⟨true, false, false⟩, Callback.headCb⟩ ∧
      ((attachHeadObserver suffix st).2.1).titleObserver = none) := by
  cases hh : st.dom.head with
  | none =>
    refine ⟨by simp [attachHeadObserver, hh], fun _ => by simp [attachHeadObserver, hh], ?_⟩
    intro h hsome _
    exact Option.noConfusion hsome
  | some h0 =>
    refine ⟨by simp [attachHeadObserver, hh], fun hn => ?_, ?_⟩
    · exact Option.noConfusion hn
    · intro h hsome ht
      injection hsome with hEq
      subst hEq
      refine ⟨by simp [attachHeadObserver, hh], ?_, ?_⟩
      · simp [attachHeadObserver, hh, watchTitleElement, ht]
      · simp [attachHeadObserver, hh, watchTitleElement, ht]

/-- C5 witness: on a document with a head element and no title element,
attach succeeds, targets the head with the retargeting observer, and leaves
no title subscription. -/
theorem c5_witness :
    (attachHeadObserver (mkSuffix hostEx) (initSt domHeadOnly)).1 = true ∧
    ((attachHeadObserver (mkSuffix hostEx) (initSt domHeadOnly)).2.1).headObserver =
      some ⟨hNode, ⟨true, false, false⟩, Callback.headCb⟩ ∧
    ((attachHeadObserver (mkSuffix hostEx) (initSt domHeadOnly)).2.1).titleObserver = none :=
  (c5_amended (mkSuffix hostEx) (initSt domHeadOnly)).2.2 hNode rfl rfl

/-- C6: the claim that at most one active change-subscription ever exists
and exactly one exists after a successful attach fails on a document with
both head and title elements: the successful attach leaves two active
subscriptions, the title observer and the head observer. -/
theorem c6_counterexample :
    (attachHeadObserver (mkSuffix hostEx) (initSt domFull)).1 = true ∧
    activeSubs (attachHeadObserver (mkSuffix hostEx) (initSt domFull)).2.1 = 2 := by
  decide

/-- C6 amended: the titleObserver variable holds at most one title
subscription, and watchTitleElement replaces it, the prior one being
released: afterwards the variable holds exactly the subscription for the
node watched now (none when no node is given), and the head observer is
untouched; after a successful attach the active subscriptions are the head
observer plus a title observer exactly when a title element was present, two
in total in that case. -/
theorem c6_amended (suffix : Str) (st : SysState) (n : Option NodeInfo) :
    ((watchTitleElement suffix n st).1).titleObserver =
      n.map (fun nd => ⟨nd, ⟨true, true, true⟩, Callback.formatTitleCb⟩) ∧
    ((watchTitleElement suffix n st).1).headObserver = st.headObserver ∧
    ((attachHeadObserver suffix st).1 = true →
      activeSubs (attachHeadObserver suffix st).2.1 =
        1 + (if st.dom.titleElem.isSome then 1 else 0)) := by
  refine ⟨?_, ?_, ?_⟩
  · cases n with
    | none => rfl
    | some nd => rfl
  · cases n with
    | none => rfl
    | some nd => rfl
  · intro hsucc
    cases hh : st.dom.head with
    | none =>
      rw [show (attachHeadObserver suffix st).1 = false by
        simp [attachHeadObserver, hh]] at hsucc
      cases hsucc
    | some h0 =>
      cases ht : st.dom.titleElem with
      | none => simp [attachHeadObserver, hh, ht, watchTitleElement, activeSubs]
      | some t0 => simp [attachHeadObserver, hh, ht, watchTitleElement, activeSubs]

/-- C6 witness: after a successful attach on a document with a head and no
title element, exactly one active subscription exists. -/
theorem c6_witness :
    activeSubs (attachHeadObserver (mkSuffix hostEx) (initSt domHeadOnly)).2.1 =
      1 + (if (initSt domHeadOnly).dom.titleElem.isSome then 1 else 0) :=
  (c6_amended (mkSuffix hostEx) (initSt domHeadOnly) none).2.2 rfl

/-- C7: the claim that a successful attach always establishes a subscription
firing formatTitle on child-list, character-data and subtree mutations of
its target fails when no title element exists: attach succeeds on a
head-only document, yet no subscription carries the formatTitle callback,
and the head observer carries the retargeting callback with characterData
disabled. -/
theorem c7_counterexample :
    (attachHeadObserver (mkSuffix hostEx) (initSt domHeadOnly)).1 = true ∧
    ((attachHeadObserver (mkSuffix hostEx) (initSt domHeadOnly)).2.1).titleObserver = none ∧
    (((attachHeadObserver (mkSuffix hostEx) (initSt domHeadOnly)).2.1).headObserver.map
      Subscription.cb) = some Callback.headCb ∧
    (((attachHeadObserver (mkSuffix hostEx) (initSt domHeadOnly)).2.1).headObserver.map
      (fun s => s.config.characterData)) = some false := by
  decide

/-- C7 amended: when attach succeeds and a title element exists, the title
subscription targets it with childList, characterData and subtree all
enabled, hence receives every mutation of either kind at the title node or
below it, and attach runs formatTitle twice, the first time immediately
after the subscription is established inside watchTitleElement; when no
title element exists no formatTitle subscription is created. -/
theorem c7_amended (suffix : Str) (st : SysState) (h t : NodeInfo)
    (hh : st.dom.head = some h) (ht : st.dom.titleElem = some t) :
    ((attachHeadObserver suffix st).2.1).titleObserver =
      some ⟨t, ⟨true, true, true⟩, Callback.formatTitleCb⟩ ∧
    (∀ ev : MutEvent,
      deliveredTo ⟨t, ⟨true, true, true⟩, Callback.formatTitleCb⟩ ev = true ↔
        (ev.node = t ∨ t ∈ ev.ancestors)) ∧
    (attachHeadObserver suffix st).2.2 = [Call.fmt, Call.fmt] := by
  refine ⟨?_, ?_, ?_⟩
  · simp [attachHeadObserver, hh, watchTitleElement, ht]
  · intro ev
    rcases ev with ⟨n, anc, k⟩
    cases k <;> simp [deliveredTo, matchesKind]
  · simp [attachHeadObserver, hh, watchTitleElement, ht]

/-- C7 witness: on a document with head and title elements attach leaves the
full subscription on the title node and invokes formatTitle twice. -/
theorem c7_witness :
    ((attachHeadObserver (mkSuffix hostEx) (initSt domFull)).2.1).titleObserver =
      some ⟨tNode, ⟨true, true, true⟩, Callback.formatTitleCb⟩ ∧
    (attachHeadObserver (mkSuffix hostEx) (initSt domFull)).2.2 = [Call.fmt, Call.fmt] :=
  ⟨(c7_amended (mkSuffix hostEx) (initSt domFull) hNode tNode rfl rfl).1,
   (c7_amended (mkSuffix hostEx) (initSt domFull) hNode tNode rfl rfl).2.2⟩

/-- C10: the head observer receives exactly the child-list mutations at the
head node itself, so a TITLE node added deeper in the subtree is not seen;
the callback retargets onto the first TITLE node among the added nodes of
the batch, scanning records and their added nodes in order, and ignores the
rest of the batch; with no TITLE added it leaves the state unchanged. -/
theorem c10_head_retarget (suffix : Str) :
    (∀ (h : NodeInfo) (ev : MutEvent),
      deliveredTo ⟨h, ⟨true, false, false⟩, Callback.headCb⟩ ev = true ↔
        (ev.node = h ∧ ev.kind = MutKind.childList)) ∧
    (∀ muts : List MutationRecord,
      findTitleInRecords muts =
        (muts.flatMap MutationRecord.addedNodes).find?
          (fun n => decide (n.tagName = titleTag))) ∧
    (∀ (muts : List MutationRecord) (st : SysState) (n : NodeInfo),
      findTitleInRecords muts = some n →
        headCallback suffix muts st = watchTitleElement suffix (some n) st) ∧
    (∀ (muts : List MutationRecord) (st : SysState),
      findTitleInRecords muts = none → headCallback suffix muts st = (st, [])) := by
  refine ⟨?_, ?_, ?_, ?_⟩
  · intro h ev
    rcases ev with ⟨n, anc, k⟩
    cases k <;> simp [deliveredTo, matchesKind]
  · intro muts
    induction muts with
    | nil => rfl
    | cons m rest ih =>
      rw [List.flatMap_cons, List.find?_append]
      unfold findTitleInRecords
      cases hf : m.addedNodes.find? (fun n => decide (n.tagName = titleTag)) with
      | some n => simp [hf]
      | none => simp [hf, ih]
  · intro muts st n hfind
    unfold headCallback
    rw [hfind]
  · intro muts st hfind
    unfold headCallback
    rw [hfind]

/-- C10 witness: an empty batch leaves the state unchanged. -/
theorem c10_witness :
    headCallback (mkSuffix hostEx) [] (initSt domFull) = (initSt domFull, []) :=
  (c10_head_retarget (mkSuffix hostEx)).2.2.2 [] (initSt domFull) rfl

end Matiane
